import Mathlib

/-!
Verification development for the partition-template codec and query-log core
of the `influxdb3_core` repository excerpt.

All definitions are shallow embeddings of the Rust source:
  * `src/data_types/src/partition_template.rs`
  * `src/iox_query/src/query_log.rs`
Machine integers are modelled as `Nat` with explicit reductions modulo `2^32`
where 32-bit overflow matters.  Fallible code (Rust panics / `expect`) is
modelled with `Option` / `Except`.  Calls into third-party crates (`murmur3`,
`percent-encoding`, `chrono`) are modelled from those crates' documented
behaviour, restricted to the inputs the repository exercises; each such model
is marked in its doc comment.
-/

namespace InfluxCore

/-! ## UTF-8 byte encoding (model of Rust `str::as_bytes`) -/

/-- UTF-8 encoding of a single unicode scalar value, as a list of byte values.
Models how Rust strings expose their bytes (`tag_value.as_bytes()`). -/
def utf8Char (c : Char) : List Nat :=
  let cp := c.toNat
  if cp < 0x80 then [cp]
  else if cp < 0x800 then
    [0xC0 ||| (cp >>> 6), 0x80 ||| (cp &&& 0x3F)]
  else if cp < 0x10000 then
    [0xE0 ||| (cp >>> 12), 0x80 ||| ((cp >>> 6) &&& 0x3F), 0x80 ||| (cp &&& 0x3F)]
  else
    [0xF0 ||| (cp >>> 18), 0x80 ||| ((cp >>> 12) &&& 0x3F),
     0x80 ||| ((cp >>> 6) &&& 0x3F), 0x80 ||| (cp &&& 0x3F)]

/-- UTF-8 bytes of a string. -/
def utf8Bytes (s : String) : List Nat :=
  s.data.flatMap utf8Char

/-! ## Murmur3 32-bit hash (model of the `murmur3` crate's `murmur3_32`)

Standard MurmurHash3 x86 32-bit, operating on the UTF-8 bytes with a given
seed.  All arithmetic is carried out on `Nat` and reduced `% 2^32`. -/

def u32 (n : Nat) : Nat := n % 4294967296

def rotl32 (x r : Nat) : Nat :=
  u32 ((x <<< r) ||| (x >>> (32 - r)))

def murmurMixK1 (k1 : Nat) : Nat :=
  let k1 := u32 (k1 * 0xcc9e2d51)
  let k1 := rotl32 k1 15
  u32 (k1 * 0x1b873593)

def murmurMixH1 (h1 k1 : Nat) : Nat :=
  let h1 := u32 (h1 ^^^ k1)
  let h1 := rotl32 h1 13
  u32 (h1 * 5 + 0xe6546b64)

/-- Body loop: consume 4-byte little-endian chunks. -/
def murmurBody (h1 : Nat) : List Nat → Nat × List Nat
  | b0 :: b1 :: b2 :: b3 :: rest =>
    let k1 := b0 ||| (b1 <<< 8) ||| (b2 <<< 16) ||| (b3 <<< 24)
    murmurBody (murmurMixH1 h1 (murmurMixK1 k1)) rest
  | tail => (h1, tail)

/-- Tail: remaining 1-3 bytes, little-endian, mixed without the h1 rotation. -/
def murmurTail (h1 : Nat) (tail : List Nat) : Nat :=
  match tail with
  | [] => h1
  | _ =>
    let k1 := match tail with
      | [b0] => b0
      | [b0, b1] => b0 ||| (b1 <<< 8)
      | [b0, b1, b2] => b0 ||| (b1 <<< 8) ||| (b2 <<< 16)
      | _ => 0
    u32 (h1 ^^^ murmurMixK1 k1)

def murmurFMix (h : Nat) : Nat :=
  let h := u32 (h ^^^ (h >>> 16))
  let h := u32 (h * 0x85ebca6b)
  let h := u32 (h ^^^ (h >>> 13))
  let h := u32 (h * 0xc2b2ae35)
  u32 (h ^^^ (h >>> 16))

/-- MurmurHash3 x86 32-bit over a byte list with the given seed. -/
def murmur3_32 (bytes : List Nat) (seed : Nat) : Nat :=
  let (h1, tail) := murmurBody (u32 seed) bytes
  let h1 := murmurTail h1 tail
  murmurFMix (u32 (h1 ^^^ bytes.length))

/-! ## Bucket hashing (`iceberg_hash`, `bucket_for_tag_value`) -/

/-- `fn iceberg_hash(tag_value: &str) -> u32`: murmur3 32-bit, seed 0, over the
UTF-8 bytes of the tag value. -/
def iceberg_hash (tag_value : String) : Nat :=
  murmur3_32 (utf8Bytes tag_value) 0

/-- `fn bucket_for_tag_value(tag_value: &str, num_buckets: u32) -> u32`:
hash, clear the sign bit (`hash & i32::MAX as u32`), modulo `num_buckets`. -/
def bucket_for_tag_value (tag_value : String) (num_buckets : Nat) : Nat :=
  (iceberg_hash tag_value &&& 0x7FFFFFFF) % num_buckets

/-- Fixture from `test_iceberg_string_hash` in the source. -/
theorem iceberg_hash_fixture : iceberg_hash "iceberg" = 1210000089 := by decide

/-- Fixtures from `test_hash_bucket_fixture` in the source. -/
theorem bucket_fixtures :
    bucket_for_tag_value "abcdefg" 5 = 4 ∧
    bucket_for_tag_value "abc" 128 = 122 ∧
    bucket_for_tag_value "测试" 12 = 8 ∧
    bucket_for_tag_value "" 16 = 0 ∧
    bucket_for_tag_value "bananas" 10 = 1 := by decide

/-! ## strftime items (model of chrono's `StrftimeItems`)

The repository validates and parses time formats through chrono's
`StrftimeItems` scanner.  The scanner is modelled here: a format string is
turned into a list of items (literals, whitespace, numeric fields, fixed
fields, or errors for malformed directives).  Literal and whitespace runs are
emitted one character at a time; chrono groups them into slices, with
identical parsing and formatting behaviour. -/

inductive NumericKind where
  | year
  | month
  | day
  | hour
  | hour12
  | minute
  | second
  | nanosecond
  | other
  deriving BEq, DecidableEq, Repr

inductive Item where
  | literal (c : Char)
  | space (c : Char)
  | numeric (k : NumericKind)
  | fixed
  | error
  deriving BEq, DecidableEq, Repr

/-- Items produced by one `%X` specifier; composite specifiers are expanded
the way chrono expands them (`%F` → `%Y-%m-%d`, etc.). -/
def specItems : Char → List Item
  | 'Y' => [.numeric .year]
  | 'm' => [.numeric .month]
  | 'd' => [.numeric .day]
  | 'e' => [.numeric .day]
  | 'H' => [.numeric .hour]
  | 'k' => [.numeric .hour]
  | 'I' => [.numeric .hour12]
  | 'l' => [.numeric .hour12]
  | 'M' => [.numeric .minute]
  | 'S' => [.numeric .second]
  | 'f' => [.numeric .nanosecond]
  | 'y' | 'C' | 'G' | 'g' | 'j' | 'U' | 'W' | 'V' | 'u' | 'w' | 's' | 'q' => [.numeric .other]
  | 'a' | 'A' | 'b' | 'B' | 'h' | 'p' | 'P' | 'Z' | 'z' | '+' => [.fixed]
  | 'D' | 'x' => [.numeric .month, .literal '/', .numeric .day, .literal '/', .numeric .other]
  | 'F' => [.numeric .year, .literal '-', .numeric .month, .literal '-', .numeric .day]
  | 'R' => [.numeric .hour, .literal ':', .numeric .minute]
  | 'T' | 'X' => [.numeric .hour, .literal ':', .numeric .minute, .literal ':', .numeric .second]
  | 'r' => [.numeric .hour12, .literal ':', .numeric .minute, .literal ':', .numeric .second,
            .space ' ', .fixed]
  | 'v' => [.numeric .day, .literal '-', .fixed, .literal '-', .numeric .year]
  | 'c' => [.fixed, .space ' ', .fixed, .space ' ', .numeric .day, .space ' ', .numeric .hour,
            .literal ':', .numeric .minute, .literal ':', .numeric .second, .space ' ',
            .numeric .year]
  | 'n' => [.space '\n']
  | 't' => [.space '\t']
  | '%' => [.literal '%']
  | _ => [.error]

/-- Fuel-indexed scanner; the fuel is the length of the character list, which
strictly exceeds the number of scanning steps (each step consumes at least one
character). -/
def strftimeItemsAux : Nat → List Char → List Item
  | 0, _ => []
  | _, [] => []
  | fuel + 1, '%' :: rest =>
    match rest with
    | [] => [.error]
    | '#' :: 'z' :: rest' => .fixed :: strftimeItemsAux fuel rest'
    | '#' :: rest' => .error :: strftimeItemsAux fuel rest'
    | '.' :: 'f' :: rest' => .fixed :: strftimeItemsAux fuel rest'
    | '.' :: '3' :: 'f' :: rest' => .fixed :: strftimeItemsAux fuel rest'
    | '.' :: '6' :: 'f' :: rest' => .fixed :: strftimeItemsAux fuel rest'
    | '.' :: '9' :: 'f' :: rest' => .fixed :: strftimeItemsAux fuel rest'
    | '.' :: rest' => .error :: strftimeItemsAux fuel rest'
    | '3' :: 'f' :: rest' => .fixed :: strftimeItemsAux fuel rest'
    | '6' :: 'f' :: rest' => .fixed :: strftimeItemsAux fuel rest'
    | '9' :: 'f' :: rest' => .fixed :: strftimeItemsAux fuel rest'
    | '3' :: rest' => .error :: strftimeItemsAux fuel rest'
    | '6' :: rest' => .error :: strftimeItemsAux fuel rest'
    | '9' :: rest' => .error :: strftimeItemsAux fuel rest'
    | '-' :: c :: rest' => specItems c ++ strftimeItemsAux fuel rest'
    | '0' :: c :: rest' => specItems c ++ strftimeItemsAux fuel rest'
    | '_' :: c :: rest' => specItems c ++ strftimeItemsAux fuel rest'
    | ['-'] | ['0'] | ['_'] => [.error]
    | c :: rest' => specItems c ++ strftimeItemsAux fuel rest'
  | fuel + 1, c :: rest =>
    (if c.isWhitespace then Item.space c else Item.literal c) :: strftimeItemsAux fuel rest

/-- `StrftimeItems::new(fmt)`, fully scanned. -/
def strftimeItems (fmt : String) : List Item :=
  strftimeItemsAux fmt.data.length fmt.data

/-! ## Protobuf partition template (`proto::PartitionTemplate`) and validation -/

inductive ProtoPart where
  | tagValue (value : String)
  | timeFormat (fmt : String)
  | bucket (tagName : String) (numBuckets : Nat)
  deriving BEq, DecidableEq, Repr

structure ProtoTemplatePart where
  part : Option ProtoPart
  deriving BEq, DecidableEq, Repr

structure ProtoPartitionTemplate where
  parts : List ProtoTemplatePart
  deriving BEq, DecidableEq, Repr

def MAXIMUM_NUMBER_OF_TEMPLATE_PARTS : Nat := 8

def TAG_VALUE_KEY_TIME : String := "time"

/-- Rust `str::contains` (substring containment), on character lists. -/
def charsContain (hay pat : List Char) : Bool :=
  match hay with
  | [] => pat.isEmpty
  | _ :: t => pat.isPrefixOf hay || charsContain t pat

def strContains (hay pat : String) : Bool :=
  charsContain hay.data pat.data

inductive ValidationError where
  | noParts
  | tooManyParts (specified : Nat)
  | invalidStrftime (s : String)
  | invalidTagValue (s : String)
  | invalidNumberOfBuckets (n : Nat)
  | repeatedTagValue (s : String)
  deriving BEq, DecidableEq, Repr

/-- `ALLOWED_BUCKET_QUANTITIES.contains(num_buckets)`: the range `[1, 100_000)`. -/
def ALLOWED_BUCKET_QUANTITIES (n : Nat) : Bool :=
  1 ≤ n && n < 100000

/-- The `TimeFormat` arm of the validation loop in
`serialization::Wrapper::try_from`: empty formats, the `%#z` directive, and
formats that fail to render against a sample timestamp (i.e. whose items
contain an `Item::Error`) are `InvalidStrftime`. -/
def timeFormatCheck (fmt : String) : Option ValidationError :=
  if fmt = "" then some (.invalidStrftime fmt)
  else if strContains fmt "%#z" then some (.invalidStrftime "%#z cannot be used")
  else if (strftimeItems fmt).any (· == .error) then some (.invalidStrftime fmt)
  else none

/-- One iteration of the validation loop body in
`serialization::Wrapper::try_from`, over the `seen_tags` set (modelled as a
list): the first failing check errors, otherwise the seen set is updated. -/
def scanOnePart (seen : List String) (p : ProtoTemplatePart) :
    Except ValidationError (List String) :=
  match p.part with
  | none => .ok seen
  | some (.timeFormat fmt) =>
    match timeFormatCheck fmt with
    | some e => .error e
    | none => .ok seen
  | some (.tagValue value) =>
    if value = "" then .error (.invalidTagValue value)
    else if strContains value TAG_VALUE_KEY_TIME then
      .error (.invalidTagValue (TAG_VALUE_KEY_TIME ++ " cannot be used"))
    else if seen.contains value then .error (.repeatedTagValue value)
    else .ok (value :: seen)
  | some (.bucket tagName numBuckets) =>
    if tagName = "" then .error (.invalidTagValue tagName)
    else if strContains tagName TAG_VALUE_KEY_TIME then
      .error (.invalidTagValue (TAG_VALUE_KEY_TIME ++ " cannot be used"))
    else if seen.contains tagName then .error (.repeatedTagValue tagName)
    else if !ALLOWED_BUCKET_QUANTITIES numBuckets then
      .error (.invalidNumberOfBuckets numBuckets)
    else .ok (tagName :: seen)

/-- The per-part validation loop of `serialization::Wrapper::try_from`:
returns the first error, or the final seen set. -/
def scanParts (seen : List String) : List ProtoTemplatePart → Except ValidationError (List String)
  | [] => .ok seen
  | p :: rest =>
    match scanOnePart seen p with
    | .error e => .error e
    | .ok seen' => scanParts seen' rest

/-- `serialization::Wrapper::try_from(proto::PartitionTemplate)`: validate a
user-provided template.  On success the wrapper stores the template verbatim. -/
def wrapperTryFrom (t : ProtoPartitionTemplate) : Except ValidationError ProtoPartitionTemplate :=
  if t.parts.isEmpty then .error .noParts
  else if t.parts.length > MAXIMUM_NUMBER_OF_TEMPLATE_PARTS then
    .error (.tooManyParts t.parts.length)
  else
    match scanParts [] t.parts with
    | .error e => .error e
    | .ok _ => .ok t

/-! ## `TemplatePart` and the table override's `parts()` / `len()` -/

inductive TemplatePart where
  | tagValue (name : String)
  | timeFormat (fmt : String)
  | bucket (name : String) (numBuckets : Nat)
  deriving BEq, DecidableEq, Repr

/-- `PARTITION_BY_DAY_PROTO`: the default template, a single `%Y-%m-%d` part. -/
def PARTITION_BY_DAY_PROTO : ProtoPartitionTemplate :=
  ⟨[⟨some (.timeFormat "%Y-%m-%d")⟩]⟩

def protoPartToTemplatePart : ProtoPart → TemplatePart
  | .tagValue v => .tagValue v
  | .timeFormat f => .timeFormat f
  | .bucket n b => .bucket n b

/-- `TablePartitionTemplateOverride::parts()`: iterate the override (or the
default template when the override is `None`), silently skipping entries whose
inner `part` is `None` (the `flat_map`). -/
def overrideParts (o : Option ProtoPartitionTemplate) : List TemplatePart :=
  ((o.getD PARTITION_BY_DAY_PROTO).parts.filterMap (·.part)).map protoPartToTemplatePart

/-- `TablePartitionTemplateOverride::len()`. -/
def overrideLen (o : Option ProtoPartitionTemplate) : Nat :=
  (overrideParts o).length

/-! ## chrono parse model (`chrono::format::parse` on `Parsed`)

Only the `Parsed` fields the repository reads are modelled.  Numeric fields
the repository treats as unsupported (`NumericKind.other`) are parsed and
discarded; any tuple whose format mentions them is dropped by
`parse_part_time_format`'s item loop before their values could matter. -/

structure Parsed where
  year : Option Nat := none
  month : Option Nat := none
  day : Option Nat := none
  hour_div_12 : Option Nat := none
  hour_mod_12 : Option Nat := none
  minute : Option Nat := none
  second : Option Nat := none
  nanosecond : Option Nat := none
  deriving BEq, DecidableEq, Repr

/-- chrono `Parsed::set_if_consistent`: setting an already-set field to a
different value is an error. -/
def setIfConsistent (old : Option Nat) (v : Nat) : Option (Option Nat) :=
  match old with
  | none => some (some v)
  | some w => if w = v then some (some w) else none

def parsedSetNumeric (p : Parsed) (k : NumericKind) (v : Nat) : Option Parsed :=
  match k with
  | .year => (setIfConsistent p.year v).map (fun f => { p with year := f })
  | .month => (setIfConsistent p.month v).map (fun f => { p with month := f })
  | .day => (setIfConsistent p.day v).map (fun f => { p with day := f })
  | .hour =>
    match setIfConsistent p.hour_div_12 (v / 12) with
    | none => none
    | some hd =>
      match setIfConsistent p.hour_mod_12 (v % 12) with
      | none => none
      | some hm => some { p with hour_div_12 := hd, hour_mod_12 := hm }
  | .hour12 => (setIfConsistent p.hour_mod_12 (v % 12)).map (fun f => { p with hour_mod_12 := f })
  | .minute => (setIfConsistent p.minute v).map (fun f => { p with minute := f })
  | .second => (setIfConsistent p.second v).map (fun f => { p with second := f })
  | .nanosecond => (setIfConsistent p.nanosecond v).map (fun f => { p with nanosecond := f })
  | .other => some p

/-- Maximum digit count chrono scans for each numeric field. -/
def numericWidth : NumericKind → Nat
  | .year => 4
  | .nanosecond => 9
  | .other => 10
  | _ => 2

def digitVal (c : Char) : Nat := c.toNat - '0'.toNat

/-- chrono `scan::number`: between 1 and `maxw` leading ASCII digits. -/
def scanNumber (maxw : Nat) (s : List Char) : Option (Nat × List Char) :=
  let digits := (s.take maxw).takeWhile (·.isDigit)
  if digits.isEmpty then none
  else some (digits.foldl (fun acc c => acc * 10 + digitVal c) 0, s.drop digits.length)

/-- Model of chrono `format::parse(&mut parsed, value, items)`: numeric items
skip leading whitespace then read digits; space items skip whitespace;
literals must match exactly.  `Fixed` items are not modelled (the repository
drops every tuple whose format contains one before the parsed values could be
consulted); parsing fails on them, as it does on `Item::Error`.  Unconsumed
trailing input is an error (chrono `TOO_LONG`). -/
def parseItemsAux (p : Parsed) (s : List Char) : List Item → Option Parsed
  | [] => if s.isEmpty then some p else none
  | .literal c :: rest =>
    match s with
    | c' :: s' => if c' = c then parseItemsAux p s' rest else none
    | [] => none
  | .space _ :: rest => parseItemsAux p (s.dropWhile (·.isWhitespace)) rest
  | .numeric k :: rest =>
    match scanNumber (numericWidth k) (s.dropWhile (·.isWhitespace)) with
    | none => none
    | some (v, s') =>
      match parsedSetNumeric p k v with
      | none => none
      | some p' => parseItemsAux p' s' rest
  | .fixed :: _ => none
  | .error :: _ => none

/-- `fn parsed_implicit_defaults(parsed) -> Option<Parsed>`: the
coarser-to-finer contiguity rule with implicit defaults, translated from the
source. -/
def parsed_implicit_defaults (p : Parsed) : Option Parsed :=
  match p.year with
  | none => none
  | some _ =>
    let step1 : Option Parsed :=
      if p.month.isNone then
        if p.day.isSome then none else some { p with month := some 1 }
      else some p
    match step1 with
    | none => none
    | some p =>
      let step2 : Option Parsed :=
        if p.day.isNone then
          if p.hour_div_12.isSome || p.hour_mod_12.isSome then none
          else some { p with day := some 1 }
        else some p
      match step2 with
      | none => none
      | some p =>
        let step3 : Option Parsed :=
          if p.hour_div_12.isNone || p.hour_mod_12.isNone then
            if p.hour_div_12.isSome then none
            else if p.hour_mod_12.isSome then none
            else if p.minute.isSome then none
            else some { p with hour_div_12 := some 0, hour_mod_12 := some 0 }
          else some p
        match step3 with
        | none => none
        | some p =>
          if p.minute.isNone then
            if p.second.isSome then none
            else if p.nanosecond.isSome then none
            else some { p with minute := some 0 }
          else some p

/-! ## UTC datetimes and calendar arithmetic (model of chrono) -/

structure DT where
  year : Nat
  month : Nat
  day : Nat
  hour : Nat
  minute : Nat
  second : Nat
  deriving BEq, DecidableEq, Repr

def isLeapYear (y : Nat) : Bool :=
  y % 4 = 0 && (y % 100 ≠ 0 || y % 400 = 0)

def daysInMonth (y m : Nat) : Nat :=
  if m = 2 then (if isLeapYear y then 29 else 28)
  else if m = 4 || m = 6 || m = 9 || m = 11 then 30
  else 31

/-- chrono `Parsed::to_datetime_with_timezone(&Utc)`: all of
year/month/day/hour/minute must be present (the second defaults to 0), and
the fields must form a valid calendar date and time of day. -/
def parsedToDatetime (p : Parsed) : Option DT :=
  match p.year, p.month, p.day, p.hour_div_12, p.hour_mod_12, p.minute with
  | some y, some m, some d, some hd, some hm, some mi =>
    let s := p.second.getD 0
    if 1 ≤ m ∧ m ≤ 12 ∧ 1 ≤ d ∧ d ≤ daysInMonth y m ∧ hd ≤ 1 ∧ hm < 12 ∧ mi < 60 ∧ s < 60 then
      some ⟨y, m, d, hd * 12 + hm, mi, s⟩
    else none
  | _, _, _, _, _, _ => none

/-- chrono `Months::new(k)` addition: advance the month, clamping the day to
the target month's length. -/
def addMonths (t : DT) (k : Nat) : DT :=
  let m0 := t.month - 1 + k
  let y' := t.year + m0 / 12
  let m' := m0 % 12 + 1
  { t with year := y', month := m', day := min t.day (daysInMonth y' m') }

/-- chrono `Days::new(1)` addition: the next calendar day. -/
def addDay (t : DT) : DT :=
  if t.day < daysInMonth t.year t.month then { t with day := t.day + 1 }
  else if t.month < 12 then { t with month := t.month + 1, day := 1 }
  else { t with year := t.year + 1, month := 1, day := 1 }

/-- Number of leap years in `[0, y)` (proleptic Gregorian; year 0 is leap). -/
def leapsBefore (y : Nat) : Nat :=
  (y + 3) / 4 - (y + 99) / 100 + (y + 399) / 400

def daysBeforeMonth (y m : Nat) : Nat :=
  (List.range (m - 1)).foldl (fun acc i => acc + daysInMonth y (i + 1)) 0

/-- Seconds-since-year-0 linearisation of a `DT`.  Subtraction and comparison
of chrono `DateTime<Utc>` values is modelled through it. -/
def linDT (t : DT) : Nat :=
  ((365 * t.year + leapsBefore t.year + daysBeforeMonth t.year t.month + (t.day - 1)) * 24
    + t.hour) * 3600 + t.minute * 60 + t.second

/-! ## `parse_part_time_format` -/

inductive ColumnValue where
  | identity (s : String)
  | prefixValue (s : String)
  | datetime (beginT endT : DT)
  | bucket (id numBuckets : Nat)
  deriving BEq, DecidableEq, Repr

/-- `item_end` for one strftime item inside `parse_part_time_format`'s loop:
`none` models the `return None` paths (errors, fixed items, unsupported
numeric fields); `some none` a literal/space contributing no end;
`some (some e)` a supported numeric field's end timestamp. -/
def itemEnd (b : DT) : Item → Option (Option DT)
  | .literal _ => some none
  | .space _ => some none
  | .error => none
  | .fixed => none
  | .numeric .year => some (some (addMonths b 12))
  | .numeric .month => some (some (addMonths b 1))
  | .numeric .day => some (some (addDay b))
  | .numeric _ => none

/-- The end-combination step of the loop: keep the end closest to `begin`
(ties keep the later item, as the source's `if a_d < b_d { a } else { b }`
does).  Both candidate ends are at or after `begin`, so comparing the chrono
durations `a - begin < b - begin` is comparing `linDT a < linDT b`. -/
def combineEnd (a b : Option DT) : Option DT :=
  match a, b with
  | some a, some b => if linDT a < linDT b then some a else some b
  | none, some b => some b
  | some a, none => some a
  | none, none => none

def computeEndLoop (b : DT) (acc : Option DT) : List Item → Option (Option DT)
  | [] => some acc
  | i :: rest =>
    match itemEnd b i with
    | none => none
    | some e => computeEndLoop b (combineEnd acc e) rest

/-- The parse / fill-defaults / to-datetime head of `parse_part_time_format`:
`begin`, when the substring parses under the format into a valid UTC
timestamp. -/
def parsedToBegin (value : String) (items : List Item) : Option DT :=
  match parseItemsAux {} value.data items with
  | none => none
  | some parsed =>
    match parsed_implicit_defaults parsed with
    | none => none
    | some parsed => parsedToDatetime parsed

/-- `fn parse_part_time_format(value, format) -> Option<ColumnValue>`, with
the format already scanned into items. -/
def parse_part_time_format_items (value : String) (items : List Item) : Option ColumnValue :=
  match parsedToBegin value items with
  | none => none
  | some b =>
    match computeEndLoop b none items with
    | none => none
    | some none => none
    | some (some e) => some (.datetime b e)

def parse_part_time_format (value format : String) : Option ColumnValue :=
  parse_part_time_format_items value (strftimeItems format)

/-- Fixtures from the source's `test_build_column_values_datetime_*` tests. -/
theorem parse_part_time_format_fixtures :
    parse_part_time_format "2023" "%Y"
      = some (.datetime ⟨2023, 1, 1, 0, 0, 0⟩ ⟨2024, 1, 1, 0, 0, 0⟩) ∧
    parse_part_time_format "2023-09" "%Y-%m"
      = some (.datetime ⟨2023, 9, 1, 0, 0, 0⟩ ⟨2023, 10, 1, 0, 0, 0⟩) ∧
    parse_part_time_format "2023-12" "%Y-%m"
      = some (.datetime ⟨2023, 12, 1, 0, 0, 0⟩ ⟨2024, 1, 1, 0, 0, 0⟩) ∧
    parse_part_time_format "2023-12-31" "%Y-%m-%d"
      = some (.datetime ⟨2023, 12, 31, 0, 0, 0⟩ ⟨2024, 1, 1, 0, 0, 0⟩) ∧
    parse_part_time_format "01-09-2023" "%d-%m-%Y"
      = some (.datetime ⟨2023, 9, 1, 0, 0, 0⟩ ⟨2023, 9, 2, 0, 0, 0⟩) ∧
    parse_part_time_format "foo" "foo" = none ∧
    parse_part_time_format "2023-01" "%Y-%d" = none ∧
    parse_part_time_format "01" "%m" = none ∧
    parse_part_time_format "01" "%d" = none ∧
    parse_part_time_format "2023-12-31T00" "%Y-%m-%dT%H" = none ∧
    parse_part_time_format "2023-12-31T00:00" "%Y-%m-%dT%H:%M" = none ∧
    parse_part_time_format "2023-12-31T00:00:00" "%Y-%m-%dT%H:%M:%S" = none := by
  decide

/-! ## Percent decoding and UTF-8 validation (models of the
`percent-encoding` crate and `Cow::decode_utf8`) -/

def hexDigitVal (b : Nat) : Option Nat :=
  if 48 ≤ b ∧ b ≤ 57 then some (b - 48)
  else if 65 ≤ b ∧ b ≤ 70 then some (b - 55)
  else if 97 ≤ b ∧ b ≤ 102 then some (b - 87)
  else none

/-- `percent_decode_str` on the UTF-8 bytes: a `%XY` hex triplet decodes to
one byte, anything else passes through unchanged. -/
def percentDecodeBytes : List Nat → List Nat
  | 37 :: x :: y :: rest =>
    match hexDigitVal x, hexDigitVal y with
    | some hx, some hy => (16 * hx + hy) :: percentDecodeBytes rest
    | _, _ => 37 :: percentDecodeBytes (x :: y :: rest)
  | b :: rest => b :: percentDecodeBytes rest
  | [] => []

/-- UTF-8 decoding/validation of a byte list; `none` models the decoder panic
`"invalid partition key part encoding"`.  The fuel is the byte count (each
step consumes at least one byte). -/
def utf8Decode : Nat → List Nat → Option (List Char)
  | _, [] => some []
  | 0, _ => none
  | fuel + 1, b :: rest =>
    if b < 0x80 then (utf8Decode fuel rest).map (Char.ofNat b :: ·)
    else if 0xC2 ≤ b ∧ b ≤ 0xDF then
      match rest with
      | b1 :: rest' =>
        if 0x80 ≤ b1 ∧ b1 ≤ 0xBF then
          (utf8Decode fuel rest').map (Char.ofNat (((b - 0xC0) <<< 6) + (b1 - 0x80)) :: ·)
        else none
      | [] => none
    else if 0xE0 ≤ b ∧ b ≤ 0xEF then
      match rest with
      | b1 :: b2 :: rest' =>
        let lo1 := if b = 0xE0 then 0xA0 else 0x80
        let hi1 := if b = 0xED then 0x9F else 0xBF
        if lo1 ≤ b1 ∧ b1 ≤ hi1 ∧ 0x80 ≤ b2 ∧ b2 ≤ 0xBF then
          (utf8Decode fuel rest').map
            (Char.ofNat (((b - 0xE0) <<< 12) + ((b1 - 0x80) <<< 6) + (b2 - 0x80)) :: ·)
        else none
      | _ => none
    else if 0xF0 ≤ b ∧ b ≤ 0xF4 then
      match rest with
      | b1 :: b2 :: b3 :: rest' =>
        let lo1 := if b = 0xF0 then 0x90 else 0x80
        let hi1 := if b = 0xF4 then 0x8F else 0xBF
        if lo1 ≤ b1 ∧ b1 ≤ hi1 ∧ 0x80 ≤ b2 ∧ b2 ≤ 0xBF ∧ 0x80 ≤ b3 ∧ b3 ≤ 0xBF then
          (utf8Decode fuel rest').map
            (Char.ofNat (((b - 0xF0) <<< 18) + ((b1 - 0x80) <<< 12) + ((b2 - 0x80) <<< 6)
              + (b3 - 0x80)) :: ·)
        else none
      | _ => none
    else none

/-! ## Per-part decoding and `build_column_values` -/

def PARTITION_KEY_VALUE_EMPTY_STR : String := "^"

def PARTITION_KEY_VALUE_NULL_STR : String := "!"

def TIME_COLUMN_NAME : String := "time"

/-- `fn parse_part_tag_value(value) -> Option<ColumnValue>`; `none` models the
panic on percent-decoded bytes that are not valid UTF-8 (the source function
otherwise always returns `Some`).  A raw value whose final byte is the
truncation marker `#` yields a `Prefix` with the marker byte dropped from the
decoded string. -/
def parse_part_tag_value (value : String) : Option ColumnValue :=
  let value := if value = PARTITION_KEY_VALUE_EMPTY_STR then "" else value
  let decodedBytes := percentDecodeBytes (utf8Bytes value)
  match utf8Decode decodedBytes.length decodedBytes with
  | none => none
  | some decoded =>
    if (utf8Bytes value).getLast? = some 35 then
      some (.prefixValue (String.mk decoded.dropLast))
    else some (.identity (String.mk decoded))

/-- Rust `str::parse::<u32>()`. -/
def parseU32 (s : String) : Option Nat :=
  let cs := match s.data with
    | '+' :: rest => rest
    | cs => cs
  if cs.isEmpty || !cs.all (·.isDigit) then none
  else
    let v := cs.foldl (fun acc c => acc * 10 + digitVal c) 0
    if v < 4294967296 then some v else none

/-- `fn parse_part_bucket(value, num_buckets)`: the source panics (modelled as
`.error`) on a malformed bucket ID or one at or above `num_buckets`. -/
def parse_part_bucket (value : String) (numBuckets : Nat) : Except String ColumnValue :=
  match parseU32 value with
  | none => .error "invalid partition key bucket encoding"
  | some id =>
    if id < numBuckets then .ok (.bucket id numBuckets)
    else .error "assertion failed: id < num_buckets"

/-- One zipped `(template part, key part)` pair of `build_column_values`'
`filter_map` closure: `.ok none` when the tuple is dropped, `.error` when the
source panics. -/
def processPair (part : TemplatePart) (value : String) :
    Except String (Option (String × ColumnValue)) :=
  if value = PARTITION_KEY_VALUE_NULL_STR then .ok none
  else
    match part with
    | .tagValue colName =>
      match parse_part_tag_value value with
      | none => .error "invalid partition key part encoding"
      | some cv => .ok (some (colName, cv))
    | .timeFormat format =>
      .ok ((parse_part_time_format value format).map (fun cv => (TIME_COLUMN_NAME, cv)))
    | .bucket colName numBuckets =>
      match parse_part_bucket value numBuckets with
      | .error msg => .error msg
      | .ok cv => .ok (some (colName, cv))

def processZipped : List (TemplatePart × String) → Except String (List (String × ColumnValue))
  | [] => .ok []
  | (part, value) :: rest =>
    match processPair part value with
    | .error msg => .error msg
    | .ok r =>
      match processZipped rest with
      | .error msg => .error msg
      | .ok rs => .ok (match r with | some t => t :: rs | none => rs)

/-- `fn build_column_values(template, partition_key)` after splitting the key:
zip the template parts with the key parts (the zip stops at the shorter side)
and process each pair. -/
def build_column_values_parts (parts : List TemplatePart) (keyParts : List String) :
    Except String (List (String × ColumnValue)) :=
  processZipped (parts.zip keyParts)

def splitCharsAux : List Char → List Char → List String
  | [], acc => [String.mk acc.reverse]
  | c :: rest, acc =>
    if c = '|' then String.mk acc.reverse :: splitCharsAux rest []
    else splitCharsAux rest (c :: acc)

/-- Rust `partition_key.split(PARTITION_KEY_DELIMITER)`: split on every `|`
(the empty string yields one empty part). -/
def splitKey (s : String) : List String :=
  splitCharsAux s.data []

def build_column_values (template : Option ProtoPartitionTemplate) (partitionKey : String) :
    Except String (List (String × ColumnValue)) :=
  build_column_values_parts (overrideParts template) (splitKey partitionKey)

deriving instance DecidableEq for Except

/-- The module-doc example template, as built by
`test_table_partition_override` (which bypasses validation). -/
def modDocTemplate : Option ProtoPartitionTemplate :=
  some ⟨[⟨some (.timeFormat "%Y")⟩, ⟨some (.tagValue "a")⟩, ⟨some (.tagValue "b")⟩,
         ⟨some (.bucket "c" 10)⟩]⟩

def year2023 : ColumnValue :=
  .datetime ⟨2023, 1, 1, 0, 0, 0⟩ ⟨2024, 1, 1, 0, 0, 0⟩

/-- Fixtures from the source's `test_build_column_values_*` tests. -/
theorem build_column_values_fixtures :
    build_column_values modDocTemplate "2023|bananas|plátanos|5"
      = .ok [(TIME_COLUMN_NAME, year2023), ("a", .identity "bananas"),
             ("b", .identity "plátanos"), ("c", .bucket 5 10)] ∧
    build_column_values modDocTemplate "2023|!|plátanos|!"
      = .ok [(TIME_COLUMN_NAME, year2023), ("b", .identity "plátanos")] ∧
    build_column_values modDocTemplate "2023|!|!|!"
      = .ok [(TIME_COLUMN_NAME, year2023)] ∧
    build_column_values modDocTemplate "2023|cat%7Cdog|%21|8"
      = .ok [(TIME_COLUMN_NAME, year2023), ("a", .identity "cat|dog"),
             ("b", .identity "!"), ("c", .bucket 8 10)] ∧
    build_column_values modDocTemplate "2023|%2550|!|9"
      = .ok [(TIME_COLUMN_NAME, year2023), ("a", .identity "%50"), ("c", .bucket 9 10)] ∧
    build_column_values modDocTemplate "2023|^|!|0"
      = .ok [(TIME_COLUMN_NAME, year2023), ("a", .identity ""), ("c", .bucket 0 10)] ∧
    build_column_values modDocTemplate "2023|BANANAS#|!|!|!"
      = .ok [(TIME_COLUMN_NAME, year2023), ("a", .prefixValue "BANANAS")] := by
  decide

/-- Unicode fixtures (`unicode_code_point_prefix`, `unicode_grapheme`,
`unambiguous`) from the source tests. -/
theorem build_column_values_unicode_fixtures :
    build_column_values
        (some ⟨[⟨some (.timeFormat "%Y")⟩, ⟨some (.tagValue "a")⟩, ⟨some (.tagValue "b")⟩]⟩)
        "2023|%E0%AE%A8%E0%AE%BF#|!"
      = .ok [(TIME_COLUMN_NAME, year2023), ("a", .prefixValue "நி")] ∧
    build_column_values
        (some ⟨[⟨some (.timeFormat "%Y")⟩, ⟨some (.tagValue "a")⟩, ⟨some (.tagValue "b")⟩]⟩)
        "2023|is%7Cnot%21ambiguous%2510%23|!"
      = .ok [(TIME_COLUMN_NAME, year2023), ("a", .identity "is|not!ambiguous%10#")] := by
  decide

/-! ## Query log (`src/iox_query/src/query_log.rs`)

Times are nanosecond counts (`Nat`); the `AtomicDuration` sentinel encoding
(`-1` = unset) is modelled as `Option Nat`.  The execution-plan tree is
modelled structurally with the `metrics()` / `elapsed_compute()` view the log
consumes.  Rust `.expect("valid state")` panics are modelled by
`Option`-returning operations. -/

inductive QueryPhase where
  | received
  | planned
  | permit
  | cancel
  | success
  | fail
  deriving BEq, DecidableEq, Repr

/-- Execution plan node: `metrics()` may be absent, and a present metrics set
may lack an `elapsed_compute()` value; plus child plans. -/
inductive ExecPlan where
  | node (metricsElapsed : Option (Option Nat)) (children : List ExecPlan)

mutual

/-- `fn collect_compute_duration(plan) -> Duration`: sum `elapsed_compute`
over the plan tree. -/
def collect_compute_duration : ExecPlan → Nat
  | .node m cs =>
    (match m with
     | some (some nanos) => nanos
     | _ => 0) + collectComputeList cs

def collectComputeList : List ExecPlan → Nat
  | [] => 0
  | p :: rest => collect_compute_duration p + collectComputeList rest

end

/-- `AtomicDuration::set_relative(origin, now)`: store `now - origin`, or keep
the old value when the clock went backwards. -/
def setRelative (old : Option Nat) (origin now : Nat) : Option Nat :=
  if origin ≤ now then some (now - origin) else old

/-- `QueryLogEntry` (the fields the token mutates, plus the immutable
metadata). -/
structure QueryLogEntry where
  id : Nat
  namespaceId : Nat
  namespaceName : String
  queryType : String
  queryText : String
  traceId : Option Nat
  issueTime : Nat
  permitDuration : Option Nat
  planDuration : Option Nat
  executeDuration : Option Nat
  end2endDuration : Option Nat
  computeDuration : Option Nat
  success : Bool
  running : Bool
  phase : QueryPhase
  deriving BEq, DecidableEq, Repr

/-- `QueryLogEntry::cancelled()`. -/
def QueryLogEntry.cancelled (e : QueryLogEntry) : Bool :=
  e.phase == .cancel

/-- The entry allocated by `QueryLog::push`: issue time `now`, phase
`Received`, running, all durations unset. -/
def newEntry (id namespaceId : Nat) (namespaceName queryType queryText : String)
    (traceId : Option Nat) (now : Nat) : QueryLogEntry :=
  { id := id, namespaceId := namespaceId, namespaceName := namespaceName,
    queryType := queryType, queryText := queryText, traceId := traceId,
    issueTime := now, permitDuration := none, planDuration := none,
    executeDuration := none, end2endDuration := none, computeDuration := none,
    success := false, running := true, phase := .received }

/-- Token type-state: `Received` carries no plan; `Planned` and `Permit` carry
the physical plan.  `State::plan()` is `statePlan`. -/
inductive TokenState where
  | stReceived
  | stPlanned (plan : ExecPlan)
  | stPermit (plan : ExecPlan)

def statePlan : TokenState → Option ExecPlan
  | .stReceived => none
  | .stPlanned plan => some plan
  | .stPermit plan => some plan

/-- `QueryCompletedToken::collect_compute_time`: set `compute_duration` from
the plan tree when the state carries a plan, else leave the entry unchanged. -/
def collectComputeTime (s : TokenState) (e : QueryLogEntry) : QueryLogEntry :=
  match statePlan s with
  | none => e
  | some plan => { e with computeDuration := some (collect_compute_duration plan) }

/-- `QueryCompletedToken<StateReceived>::set_time`: record `plan_duration`
relative to the issue time. -/
def setTimeReceived (e : QueryLogEntry) (now : Nat) : QueryLogEntry :=
  { e with planDuration := setRelative e.planDuration e.issueTime now }

/-- `QueryCompletedToken<StateReceived>::planned` (entry mutation only; the
token moves to `StatePlanned`). -/
def plannedOp (e : QueryLogEntry) (now : Nat) : QueryLogEntry :=
  { setTimeReceived e now with phase := .planned }

/-- Entry mutation of `QueryCompletedToken<StateReceived>::fail` (before the
token's drop glue runs). -/
def failReceivedInner (e : QueryLogEntry) (now : Nat) : QueryLogEntry :=
  { setTimeReceived e now with phase := .fail }

/-- `QueryCompletedToken<StatePlanned>::permit`: `plan_duration` must be set
(`.expect("valid state")`); record `permit_duration` relative to
`issue_time + plan_duration`. -/
def permitOp (e : QueryLogEntry) (now : Nat) : Option QueryLogEntry :=
  match e.planDuration with
  | none => none
  | some pd =>
    some { e with
      permitDuration := setRelative e.permitDuration (e.issueTime + pd) now,
      phase := .permit }

/-- `QueryCompletedToken<StatePermit>::finish`: record `execute_duration`
relative to `issue_time + permit_duration + plan_duration` and collect the
compute time from the plan tree. -/
def finishOp (plan : ExecPlan) (e : QueryLogEntry) (now : Nat) : Option QueryLogEntry :=
  match e.permitDuration, e.planDuration with
  | some pd, some pld =>
    some (collectComputeTime (.stPermit plan)
      { e with executeDuration := setRelative e.executeDuration (e.issueTime + pd + pld) now })
  | _, _ => none

/-- `Drop for QueryCompletedToken` on a token still holding its entry: cancel
non-terminal entries (collecting partial compute time when a permit was
issued), then finalise `end2end_duration` and `running`. -/
def dropOp (s : TokenState) (e : QueryLogEntry) (now : Nat) : QueryLogEntry :=
  let e :=
    if e.phase ≠ .fail ∧ e.executeDuration = none then
      let e := { e with phase := .cancel }
      if e.permitDuration.isSome then collectComputeTime s e else e
    else e
  { e with
    end2endDuration := setRelative e.end2endDuration e.issueTime now,
    running := false }

/-- `QueryCompletedToken<StateReceived>::fail` including the drop glue that
runs when the consumed token goes out of scope. -/
def failReceivedOp (e : QueryLogEntry) (now : Nat) : QueryLogEntry :=
  dropOp .stReceived (failReceivedInner e now) now

/-- `QueryCompletedToken<StatePermit>::success` including the drop glue. -/
def successOp (plan : ExecPlan) (e : QueryLogEntry) (now : Nat) : Option QueryLogEntry :=
  (finishOp plan { e with success := true, phase := .success } now).map
    (fun e => dropOp (.stPermit plan) e now)

/-- `QueryCompletedToken<StatePermit>::fail` including the drop glue. -/
def failPermitOp (plan : ExecPlan) (e : QueryLogEntry) (now : Nat) : Option QueryLogEntry :=
  (finishOp plan { e with phase := .fail } now).map
    (fun e => dropOp (.stPermit plan) e now)

/-- The `QueryLog` ring-buffer state: stored entries (front of the
`VecDeque` first), the capacity, and the evicted counter. -/
structure QueryLogState where
  entries : List QueryLogEntry
  max_size : Nat
  evicted : Nat
  deriving BEq, DecidableEq, Repr

def emptyQueryLog (max_size : Nat) : QueryLogState :=
  { entries := [], max_size := max_size, evicted := 0 }

/-- The storage effect of `QueryLog::push`: a `max_size` of zero stores
nothing; otherwise evict from the front while `len > max_size` (incrementing
the evicted counter per eviction), then push the new entry at the back. -/
def queryLogPush (l : QueryLogState) (e : QueryLogEntry) : QueryLogState :=
  if l.max_size = 0 then l
  else
    let k := l.entries.length - l.max_size
    { l with
      entries := l.entries.drop k ++ [e],
      evicted := l.evicted + k }

/-- `QueryLog::entries` returns the stored entries, `max_size`, and the
evicted counter (the snapshot is exactly the state). -/
def queryLogEntries (l : QueryLogState) : QueryLogState := l

/-- Push `n` numbered entries (ids `0..n-1`, in push order) into a log. -/
def pushN (l : QueryLogState) : Nat → QueryLogState
  | 0 => l
  | n + 1 => queryLogPush (pushN l n) (newEntry n 1 "ns" "sql" "q" none 0)

/-! ## Helper lemmas -/

theorem scanParts_all_none (seen : List String) (parts : List ProtoTemplatePart)
    (hnone : ∀ p ∈ parts, p.part = none) : scanParts seen parts = .ok seen := by
  induction parts with
  | nil => rfl
  | cons p rest ih =>
    have hp : p.part = none := hnone p (by simp)
    simp only [scanParts, scanOnePart, hp]
    exact ih fun q hq => hnone q (by simp [hq])

theorem filterMap_part_all_none (parts : List ProtoTemplatePart)
    (hnone : ∀ p ∈ parts, p.part = none) : parts.filterMap (·.part) = [] := by
  induction parts with
  | nil => rfl
  | cons p rest ih =>
    have hp : p.part = none := hnone p (by simp)
    simp only [List.filterMap_cons, hp]
    exact ih fun q hq => hnone q (by simp [hq])

/-! ## Claim theorems -/

/-- C8: for every tag value and every bucket count in `[1, 100_000)`,
`bucket_for_tag_value` is strictly below the bucket count, equals the seed-0
murmur3-32 hash of the UTF-8 bytes with the sign bit cleared modulo the
bucket count, and is deterministic. -/
theorem c8_bucket_for_tag_value_spec (v : String) (n : Nat)
    (h1 : 1 ≤ n) (_h2 : n < 100000) :
    bucket_for_tag_value v n < n ∧
    bucket_for_tag_value v n = ((murmur3_32 (utf8Bytes v) 0) &&& 0x7FFFFFFF) % n ∧
    bucket_for_tag_value v n = bucket_for_tag_value v n :=
  ⟨Nat.mod_lt _ h1, rfl, rfl⟩

/-- C8 witness: the spec holds at the Iceberg fixture `("abcdefg", 5)`. -/
theorem c8_bucket_for_tag_value_spec_witness :
    1 ≤ 5 ∧ 5 < 100000 ∧ bucket_for_tag_value "abcdefg" 5 < 5 ∧
    bucket_for_tag_value "abcdefg" 5 = 4 :=
  ⟨by decide, by decide,
   (c8_bucket_for_tag_value_spec "abcdefg" 5 (by decide) (by decide)).1, by decide⟩

/-- C10: a proto template whose parts list is non-empty with at most 8
entries, every entry's inner `part` absent, passes validation, and the
resulting override's `parts()` iterator silently skips all entries, so
`len() = 0` despite the non-empty parts list. -/
theorem c10_all_none_parts_template (parts : List ProtoTemplatePart)
    (hne : parts ≠ []) (hle : parts.length ≤ 8)
    (hnone : ∀ p ∈ parts, p.part = none) :
    wrapperTryFrom ⟨parts⟩ = .ok ⟨parts⟩ ∧
    overrideParts (some ⟨parts⟩) = [] ∧
    overrideLen (some ⟨parts⟩) = 0 := by
  have hscan := scanParts_all_none [] parts hnone
  have hfm := filterMap_part_all_none parts hnone
  refine ⟨?_, ?_, ?_⟩
  · simp only [wrapperTryFrom, MAXIMUM_NUMBER_OF_TEMPLATE_PARTS]
    rw [if_neg (by simpa using hne), if_neg (by omega)]
    simp [hscan]
  · simp [overrideParts, hfm]
  · simp [overrideLen, overrideParts, hfm]

/-- C10 witness: a three-entry all-`None` template validates and has
`len() = 0`. -/
theorem c10_all_none_parts_template_witness :
    wrapperTryFrom ⟨[⟨none⟩, ⟨none⟩, ⟨none⟩]⟩ = .ok ⟨[⟨none⟩, ⟨none⟩, ⟨none⟩]⟩ ∧
    overrideLen (some ⟨[⟨none⟩, ⟨none⟩, ⟨none⟩]⟩) = 0 :=
  ⟨(c10_all_none_parts_template [⟨none⟩, ⟨none⟩, ⟨none⟩]
      (by decide) (by decide) (by simp)).1,
   (c10_all_none_parts_template [⟨none⟩, ⟨none⟩, ⟨none⟩]
      (by decide) (by decide) (by simp)).2.2⟩

/-- C2 counterexample: `"timezone"` is non-empty and not equal to `"time"`,
yet validation rejects it with the reserved-name `InvalidTagValue` error
(the source checks substring containment, not equality). -/
theorem c2_timezone_tag_rejected :
    wrapperTryFrom ⟨[⟨some (.tagValue "timezone")⟩]⟩
      = .error (.invalidTagValue "time cannot be used") := by decide

/-- C2 amended: validation rejects a `TagValue` or `Bucket` part's name on
reserved-name grounds exactly when the name CONTAINS the reserved string
`"time"` as a substring (so names such as `"timezone"` or `"downtime"` are
also rejected). -/
theorem c2_reserved_name_rejection_iff (name : String) (n : Nat) :
    (wrapperTryFrom ⟨[⟨some (.tagValue name)⟩]⟩
        = .error (.invalidTagValue (TAG_VALUE_KEY_TIME ++ " cannot be used"))
      ↔ (name ≠ "" ∧ strContains name TAG_VALUE_KEY_TIME = true)) ∧
    (wrapperTryFrom ⟨[⟨some (.bucket name n)⟩]⟩
        = .error (.invalidTagValue (TAG_VALUE_KEY_TIME ++ " cannot be used"))
      ↔ (name ≠ "" ∧ strContains name TAG_VALUE_KEY_TIME = true)) := by
  constructor
  · by_cases hemp : name = ""
    · subst hemp
      decide
    · by_cases hc : strContains name TAG_VALUE_KEY_TIME = true
      · simp [wrapperTryFrom, MAXIMUM_NUMBER_OF_TEMPLATE_PARTS, scanParts, scanOnePart,
          hemp, hc]
      · simp [wrapperTryFrom, MAXIMUM_NUMBER_OF_TEMPLATE_PARTS, scanParts, scanOnePart,
          hemp, hc]
  · by_cases hemp : name = ""
    · subst hemp
      simp [wrapperTryFrom, MAXIMUM_NUMBER_OF_TEMPLATE_PARTS, scanParts, scanOnePart,
        TAG_VALUE_KEY_TIME]
    · by_cases hc : strContains name TAG_VALUE_KEY_TIME = true
      · simp [wrapperTryFrom, MAXIMUM_NUMBER_OF_TEMPLATE_PARTS, scanParts, scanOnePart,
          hemp, hc]
      · by_cases hq : ALLOWED_BUCKET_QUANTITIES n = true
        · simp [wrapperTryFrom, MAXIMUM_NUMBER_OF_TEMPLATE_PARTS, scanParts, scanOnePart,
            hemp, hc, hq]
        · simp [wrapperTryFrom, MAXIMUM_NUMBER_OF_TEMPLATE_PARTS, scanParts, scanOnePart,
            hemp, hc, hq]

/-- C1 failing input: a log with `max_size = 1` retains BOTH entries after two
pushes and evicts none; only a third push evicts the oldest entry.  The
retained entries are the most recent, in push order, but the log holds
`max_size + 1` entries, contradicting `QueryLog::new`'s own documentation
("can hold at most `size` items. When the `size+1` item is added, item `0`
is evicted"). -/
theorem c1_query_log_off_by_one :
    (pushN (emptyQueryLog 1) 2).entries.length = 2 ∧
    (pushN (emptyQueryLog 1) 2).evicted = 0 ∧
    (pushN (emptyQueryLog 1) 3).entries.length = 2 ∧
    (pushN (emptyQueryLog 1) 3).evicted = 1 ∧
    (pushN (emptyQueryLog 1) 3).entries.map (·.id) = [1, 2] := by decide

/-- C3 counterexample: the template `[TagValue "", TimeFormat ""]` contains
both an invalid time format and a tag value with an invalid name, but
validation returns the earlier part's `InvalidTagValue`, not
`InvalidStrftime`. -/
theorem c3_tag_error_before_strftime_error :
    wrapperTryFrom ⟨[⟨some (.tagValue "")⟩, ⟨some (.timeFormat "")⟩]⟩
      = .error (.invalidTagValue "") := by decide

theorem scanParts_append (s : List String) (pre rest : List ProtoTemplatePart) :
    scanParts s (pre ++ rest)
      = match scanParts s pre with
        | .ok s' => scanParts s' rest
        | .error e => .error e := by
  induction pre generalizing s with
  | nil => simp [scanParts]
  | cons p pre ih =>
    simp only [List.cons_append, scanParts]
    cases scanOnePart s p with
    | error e => rfl
    | ok s' => exact ih s'

/-- C3 amended: validation still checks `NoParts` first and `TooManyParts`
second, but the remaining checks run over the parts in template order, and
the first failing part determines the error; there is no global priority of
`InvalidStrftime` over `InvalidTagValue`.  In particular an invalid
`TimeFormat` part yields `InvalidStrftime`, and a reserved-name `TagValue`
part yields `InvalidTagValue`, whichever comes first in the template. -/
theorem c3_validation_error_order (parts pre rest : List ProtoTemplatePart)
    (seen : List String) (e : ValidationError) :
    (parts = [] → wrapperTryFrom ⟨parts⟩ = .error .noParts) ∧
    (parts ≠ [] → parts.length > 8 →
      wrapperTryFrom ⟨parts⟩ = .error (.tooManyParts parts.length)) ∧
    (parts = pre ++ rest → parts ≠ [] → parts.length ≤ 8 →
      scanParts [] pre = .ok seen → scanParts seen rest = .error e →
      wrapperTryFrom ⟨parts⟩ = .error e) ∧
    (∀ fmt, timeFormatCheck fmt = some e →
      scanParts seen (⟨some (.timeFormat fmt)⟩ :: rest) = .error e) ∧
    (∀ name, name ≠ "" → strContains name TAG_VALUE_KEY_TIME = true →
      scanParts seen (⟨some (.tagValue name)⟩ :: rest)
        = .error (.invalidTagValue (TAG_VALUE_KEY_TIME ++ " cannot be used"))) := by
  refine ⟨?_, ?_, ?_, ?_, ?_⟩
  · intro h
    subst h
    rfl
  · intro hne hlen
    simp only [wrapperTryFrom, MAXIMUM_NUMBER_OF_TEMPLATE_PARTS]
    rw [if_neg (by simpa using hne), if_pos (by omega)]
  · intro hsplit hne hlen hpre hrest
    simp only [wrapperTryFrom, MAXIMUM_NUMBER_OF_TEMPLATE_PARTS]
    rw [if_neg (by simpa using hne), if_neg (by omega)]
    simp only [hsplit, scanParts_append, hpre, hrest]
  · intro fmt hfmt
    simp [scanParts, scanOnePart, hfmt]
  · intro name hne hc
    simp [scanParts, scanOnePart, hne, hc]

/-- C3 witness: for the parts `[TagValue "ok", TimeFormat ""]` the first
failing part is the empty time format, so validation yields its
`InvalidStrftime` error. -/
theorem c3_validation_error_order_witness :
    wrapperTryFrom ⟨[⟨some (.tagValue "ok")⟩, ⟨some (.timeFormat "")⟩]⟩
      = .error (.invalidStrftime "") :=
  (c3_validation_error_order
      [⟨some (.tagValue "ok")⟩, ⟨some (.timeFormat "")⟩]
      [⟨some (.tagValue "ok")⟩] [⟨some (.timeFormat "")⟩]
      ["ok"] (.invalidStrftime "")).2.2.1
    rfl (by decide) (by decide) (by decide) (by decide)

theorem zip_append_left {α β : Type} (ps qs : List α) (ks : List β)
    (h : ks.length ≤ ps.length) : (ps ++ qs).zip ks = ps.zip ks := by
  induction ps generalizing ks with
  | nil =>
    cases ks with
    | nil => simp
    | cons k ks => simp at h
  | cons p ps ih =>
    cases ks with
    | nil => simp
    | cons k ks =>
      simp only [List.cons_append, List.zip_cons_cons, List.cons.injEq, true_and]
      exact ih ks (by simpa using h)

theorem zip_append_right {α β : Type} (ps : List α) (ks ls : List β)
    (h : ps.length ≤ ks.length) : ps.zip (ks ++ ls) = ps.zip ks := by
  induction ps generalizing ks with
  | nil => simp
  | cons p ps ih =>
    cases ks with
    | nil => simp at h
    | cons k ks =>
      simp only [List.cons_append, List.zip_cons_cons, List.cons.injEq, true_and]
      exact ih ks (by simpa using h)

/-- C7: `build_column_values` raises no error on a structural mismatch
between the template and the key: the zip stops at the shorter side, so
surplus template parts and surplus key parts are ignored, and a `!` key part
emits nothing. -/
theorem c7_zip_stops_at_shorter_side (ps qs : List TemplatePart)
    (ks ls : List String) (p : TemplatePart) :
    (ks.length ≤ ps.length →
      build_column_values_parts (ps ++ qs) ks = build_column_values_parts ps ks) ∧
    (ps.length ≤ ks.length →
      build_column_values_parts ps (ks ++ ls) = build_column_values_parts ps ks) ∧
    build_column_values_parts (p :: ps) ("!" :: ks) = build_column_values_parts ps ks := by
  refine ⟨?_, ?_, ?_⟩
  · intro h
    simp only [build_column_values_parts, zip_append_left ps qs ks h]
  · intro h
    simp only [build_column_values_parts, zip_append_right ps ks ls h]
  · have h : processPair p "!" = .ok none := by
      simp [processPair, PARTITION_KEY_VALUE_NULL_STR]
    simp only [build_column_values_parts, List.zip_cons_cons, processZipped, h, List.zip]
    cases hq : processZipped (List.zipWith Prod.mk ps ks) <;> simp [hq]

/-- C7 witness: a four-part template against a two-part key (and vice versa)
decodes like the truncated template, and a `!` part is dropped. -/
theorem c7_zip_stops_at_shorter_side_witness :
    (build_column_values_parts
        [.timeFormat "%Y", .tagValue "a", .tagValue "b", .bucket "c" 10]
        ["2023", "x"]
      = build_column_values_parts [.timeFormat "%Y", .tagValue "a"] ["2023", "x"]) ∧
    (build_column_values_parts [.timeFormat "%Y"] ["2023", "x", "y"]
      = build_column_values_parts [.timeFormat "%Y"] ["2023"]) ∧
    build_column_values_parts [.tagValue "a", .tagValue "b"] ["!", "z"]
      = build_column_values_parts [.tagValue "b"] ["z"] :=
  ⟨(c7_zip_stops_at_shorter_side [.timeFormat "%Y", .tagValue "a"]
      [.tagValue "b", .bucket "c" 10] ["2023", "x"] [] (.tagValue "a")).1 (by decide),
   (c7_zip_stops_at_shorter_side [.timeFormat "%Y"] [] ["2023"] ["x", "y"]
      (.tagValue "a")).2.1 (by decide),
   (c7_zip_stops_at_shorter_side [.tagValue "b"] [] ["z"] [] (.tagValue "a")).2.2⟩

/-- C5: dropping a token in any non-terminal state (Received, Planned or
Permit — before `success`/`fail`) cancels the entry: phase becomes `Cancel`,
`end2end_duration = now - issue_time` is recorded, `running` becomes false;
compute time is collected from the plan tree exactly when the drop happened
after `permit()` (`permit_duration` set, `Permit` token state), and the
entry's compute duration is left untouched otherwise. -/
theorem c5_token_drop_cancels (s : TokenState) (e : QueryLogEntry) (now : Nat)
    (hphase : e.phase = .received ∨ e.phase = .planned ∨ e.phase = .permit)
    (hexec : e.executeDuration = none)
    (hclock : e.issueTime ≤ now)
    (hperm : e.permitDuration.isSome ↔ ∃ plan, s = .stPermit plan) :
    (dropOp s e now).phase = .cancel ∧
    (dropOp s e now).end2endDuration = some (now - e.issueTime) ∧
    (dropOp s e now).running = false ∧
    (∀ plan, s = .stPermit plan →
      (dropOp s e now).computeDuration = some (collect_compute_duration plan)) ∧
    ((∀ plan, s ≠ .stPermit plan) → (dropOp s e now).computeDuration = e.computeDuration) := by
  have hnotfail : e.phase ≠ QueryPhase.fail := by
    rcases hphase with h | h | h <;> simp [h]
  simp only [dropOp, if_pos (And.intro hnotfail hexec)]
  cases s with
  | stReceived =>
    have hps : e.permitDuration.isSome = false := by
      cases hp : e.permitDuration with
      | none => rfl
      | some v =>
        exfalso
        rcases hperm.mp (by simp [hp]) with ⟨plan', hplan⟩
        cases hplan
    simp [hps, setRelative, hclock, collectComputeTime, statePlan]
  | stPlanned plan =>
    have hps : e.permitDuration.isSome = false := by
      cases hp : e.permitDuration with
      | none => rfl
      | some v =>
        exfalso
        rcases hperm.mp (by simp [hp]) with ⟨plan', hplan⟩
        cases hplan
    simp [hps, setRelative, hclock, collectComputeTime, statePlan]
  | stPermit plan =>
    have hps : e.permitDuration.isSome = true := hperm.mpr ⟨plan, rfl⟩
    refine ⟨?_, ?_, ?_, ?_, ?_⟩
    · simp [hps, collectComputeTime, statePlan]
    · simp [hps, collectComputeTime, statePlan, setRelative, hclock]
    · simp [hps, collectComputeTime, statePlan]
    · intro plan' hplan'
      cases hplan'
      simp [hps, collectComputeTime, statePlan]
    · intro hnone
      exact absurd rfl (hnone plan)

/-- C5 witness: a `Permit`-state token dropped at `now = 120` on an entry
issued at `100` cancels it and collects the plan tree's compute time. -/
theorem c5_token_drop_cancels_witness :
    (dropOp (.stPermit (.node (some (some 42)) []))
        { newEntry 1 1 "ns" "sql" "q" none 100 with
            phase := .permit, planDuration := some 3, permitDuration := some 5 }
        120).phase = .cancel ∧
    (dropOp (.stPermit (.node (some (some 42)) []))
        { newEntry 1 1 "ns" "sql" "q" none 100 with
            phase := .permit, planDuration := some 3, permitDuration := some 5 }
        120).end2endDuration = some 20 ∧
    (dropOp (.stPermit (.node (some (some 42)) []))
        { newEntry 1 1 "ns" "sql" "q" none 100 with
            phase := .permit, planDuration := some 3, permitDuration := some 5 }
        120).computeDuration = some 42 := by
  have h := c5_token_drop_cancels (.stPermit (.node (some (some 42)) []))
    { newEntry 1 1 "ns" "sql" "q" none 100 with
        phase := .permit, planDuration := some 3, permitDuration := some 5 }
    120 (by simp [newEntry]) (by simp [newEntry]) (by simp [newEntry])
    (by simp [newEntry])
  exact ⟨h.1, by simpa [newEntry] using h.2.1,
    by simpa [collect_compute_duration, collectComputeList] using h.2.2.2.1 _ rfl⟩

/-- C9: `fail()` on a `Permit`-state token performs the same compute-time
collection as `success()` (summing the plan tree's `elapsed_compute`
metrics), in addition to recording `execute_duration` and phase `Fail`;
compute time is not left unset on execution failure. -/
theorem c9_fail_permit_collects_compute (plan : ExecPlan) (e : QueryLogEntry)
    (now pd pld : Nat)
    (hpd : e.permitDuration = some pd) (hpld : e.planDuration = some pld)
    (hclock : e.issueTime + pd + pld ≤ now) :
    ∃ e', failPermitOp plan e now = some e' ∧
      e'.computeDuration = some (collect_compute_duration plan) ∧
      e'.executeDuration = some (now - (e.issueTime + pd + pld)) ∧
      e'.phase = .fail ∧
      (successOp plan e now).map (·.computeDuration)
        = (failPermitOp plan e now).map (·.computeDuration) := by
  simp only [failPermitOp, successOp, finishOp, hpd, hpld, Option.map_some]
  refine ⟨_, rfl, ?_, ?_, ?_, ?_⟩ <;>
    simp [dropOp, collectComputeTime, statePlan, setRelative, hclock]

/-- C9 witness: failing at `now = 120` an entry issued at `100` with permit
and plan durations `5` and `3` stores compute time `42` from the plan tree,
execute duration `12`, and phase `Fail`. -/
theorem c9_fail_permit_collects_compute_witness :
    ∃ e', failPermitOp (.node (some (some 42)) [])
        { newEntry 1 1 "ns" "sql" "q" none 100 with
            phase := .permit, planDuration := some 3, permitDuration := some 5 }
        120 = some e' ∧
      e'.computeDuration = some 42 ∧ e'.executeDuration = some 12 ∧ e'.phase = .fail := by
  rcases c9_fail_permit_collects_compute (.node (some (some 42)) [])
      { newEntry 1 1 "ns" "sql" "q" none 100 with
          phase := .permit, planDuration := some 3, permitDuration := some 5 }
      120 5 3 (by simp [newEntry]) (by simp [newEntry]) (by simp [newEntry])
    with ⟨e', h1, h2, h3, h4, _⟩
  exact ⟨e', h1, by simpa [collect_compute_duration, collectComputeList] using h2,
    by simpa [newEntry] using h3, h4⟩

/-- C6: the happy path (durations in nanoseconds; 1 ms = 1_000_000 ns).
Push at `t`, `planned` at `t+1ms`, `permit` at `t+11ms`, `success` at
`t+111ms`: the phase progresses Received → Planned → Permit → Success, and
the final entry has `plan_duration = 1ms`, `permit_duration = 10ms`,
`execute_duration = 100ms`, `end2end_duration = 111ms`, `compute_duration`
equal to the summed `elapsed_compute` of the plan tree, `success = true`,
`running = false`, `cancelled = false`. -/
theorem c6_happy_path (t : Nat) (plan : ExecPlan) :
    ∃ e2 e3,
      (newEntry 1 1 "ns" "sql" "SELECT 1" none t).phase = .received ∧
      (plannedOp (newEntry 1 1 "ns" "sql" "SELECT 1" none t) (t + 1000000)).phase
        = .planned ∧
      permitOp (plannedOp (newEntry 1 1 "ns" "sql" "SELECT 1" none t) (t + 1000000))
          (t + 11000000) = some e2 ∧
      e2.phase = .permit ∧
      successOp plan e2 (t + 111000000) = some e3 ∧
      e3.phase = .success ∧
      e3.planDuration = some 1000000 ∧
      e3.permitDuration = some 10000000 ∧
      e3.executeDuration = some 100000000 ∧
      e3.end2endDuration = some 111000000 ∧
      e3.computeDuration = some (collect_compute_duration plan) ∧
      e3.success = true ∧
      e3.running = false ∧
      e3.cancelled = false := by
  have ha1 : setRelative none t (t + 1000000) = some 1000000 := by
    simp only [setRelative]
    rw [if_pos (by omega)]
    exact congrArg some (by omega)
  have ha2 : setRelative none (t + 1000000) (t + 11000000) = some 10000000 := by
    simp only [setRelative]
    rw [if_pos (by omega)]
    exact congrArg some (by omega)
  have ha3 : setRelative none (t + 10000000 + 1000000) (t + 111000000)
      = some 100000000 := by
    simp only [setRelative]
    rw [if_pos (by omega)]
    exact congrArg some (by omega)
  have ha4 : setRelative none t (t + 111000000) = some 111000000 := by
    simp only [setRelative]
    rw [if_pos (by omega)]
    exact congrArg some (by omega)
  have h1 : plannedOp (newEntry 1 1 "ns" "sql" "SELECT 1" none t) (t + 1000000)
      = { id := 1, namespaceId := 1, namespaceName := "ns", queryType := "sql",
          queryText := "SELECT 1", traceId := none, issueTime := t,
          permitDuration := none, planDuration := some 1000000,
          executeDuration := none, end2endDuration := none, computeDuration := none,
          success := false, running := true, phase := .planned } := by
    simp only [plannedOp, setTimeReceived, newEntry, ha1]
  rw [h1]
  refine ⟨{ id := 1, namespaceId := 1, namespaceName := "ns", queryType := "sql",
            queryText := "SELECT 1", traceId := none, issueTime := t,
            permitDuration := some 10000000, planDuration := some 1000000,
            executeDuration := none, end2endDuration := none, computeDuration := none,
            success := false, running := true, phase := .permit },
          { id := 1, namespaceId := 1, namespaceName := "ns", queryType := "sql",
            queryText := "SELECT 1", traceId := none, issueTime := t,
            permitDuration := some 10000000, planDuration := some 1000000,
            executeDuration := some 100000000, end2endDuration := some 111000000,
            computeDuration := some (collect_compute_duration plan),
            success := true, running := false, phase := .success },
          rfl, rfl, ?_, rfl, ?_, rfl, rfl, rfl, rfl, rfl, rfl, rfl, rfl, rfl⟩
  · simp only [permitOp, ha2]
  · simp only [successOp, finishOp, collectComputeTime, statePlan, ha3, Option.map_some,
      dropOp, ha4, Option.some.injEq]
    simp
    exact ha4

/-! ## C4: characterisation of `parse_part_time_format` -/

/-- Items the end-computation loop of `parse_part_time_format` supports:
literals, whitespace, and the numeric fields `%Y`, `%m`, `%d`. -/
def itemSupported : Item → Bool
  | .literal _ => true
  | .space _ => true
  | .numeric .year => true
  | .numeric .month => true
  | .numeric .day => true
  | _ => false

def isNumericItem : Item → Bool
  | .numeric _ => true
  | _ => false

def hasNumericItem (items : List Item) : Bool :=
  items.any isNumericItem

/-- The candidate end timestamps, one per supported numeric field:
`%Y` → `begin + 12 months`, `%m` → `begin + 1 month`, `%d` → `begin + 1 day`. -/
def stepEnds (b : DT) : List Item → List DT
  | [] => []
  | .numeric .year :: rest => addMonths b 12 :: stepEnds b rest
  | .numeric .month :: rest => addMonths b 1 :: stepEnds b rest
  | .numeric .day :: rest => addDay b :: stepEnds b rest
  | _ :: rest => stepEnds b rest

/-- Left fold of `combineEnd` over the candidate ends: what the loop computes
once the unsupported-item exits are ruled out. -/
def minByLin (acc : Option DT) : List DT → Option DT
  | [] => acc
  | x :: xs => minByLin (combineEnd acc (some x)) xs

theorem combineEnd_none (acc : Option DT) : combineEnd acc none = acc := by
  cases acc <;> rfl

theorem combineEnd_some_min (acc : Option DT) (y : DT) :
    ∃ z, combineEnd acc (some y) = some z ∧ linDT z ≤ linDT y ∧
      (∀ a, acc = some a → linDT z ≤ linDT a) ∧ (z = y ∨ acc = some z) := by
  cases acc with
  | none => exact ⟨y, rfl, le_refl _, by simp, Or.inl rfl⟩
  | some a =>
    by_cases h : linDT a < linDT y
    · refine ⟨a, by simp [combineEnd, h], le_of_lt h, ?_, Or.inr rfl⟩
      intro a' ha'
      obtain rfl : a = a' := by simpa using ha'
      exact le_refl _
    · refine ⟨y, by simp [combineEnd, h], le_refl _, ?_, Or.inl rfl⟩
      intro a' ha'
      obtain rfl : a = a' := by simpa using ha'
      omega

theorem itemEnd_isSome (b : DT) (i : Item) : (itemEnd b i).isSome = itemSupported i := by
  cases i with
  | literal c => rfl
  | space c => rfl
  | numeric k => cases k <;> rfl
  | fixed => rfl
  | error => rfl

theorem computeEndLoop_supported (b : DT) (items : List Item) :
    ∀ acc r, computeEndLoop b acc items = some r → items.all itemSupported = true := by
  induction items with
  | nil => intro acc r _; rfl
  | cons i rest ih =>
    intro acc r h
    cases hi : itemEnd b i with
    | none => simp [computeEndLoop, hi] at h
    | some e' =>
      have hsup : itemSupported i = true := by
        rw [← itemEnd_isSome b i, hi]
        rfl
      simp only [computeEndLoop, hi] at h
      simp only [List.all_cons, hsup, Bool.true_and]
      exact ih _ _ h

theorem computeEndLoop_eq_minByLin (b : DT) (items : List Item) :
    ∀ acc, items.all itemSupported = true →
      computeEndLoop b acc items = some (minByLin acc (stepEnds b items)) := by
  induction items with
  | nil => intro acc _; rfl
  | cons i rest ih =>
    intro acc h
    have hsup : itemSupported i = true := by
      simp only [List.all_cons, Bool.and_eq_true] at h
      exact h.1
    have hrest : rest.all itemSupported = true := by
      simp only [List.all_cons, Bool.and_eq_true] at h
      exact h.2
    cases i with
    | literal c =>
      simp only [computeEndLoop, itemEnd, stepEnds, combineEnd_none]
      exact ih acc hrest
    | space c =>
      simp only [computeEndLoop, itemEnd, stepEnds, combineEnd_none]
      exact ih acc hrest
    | numeric k =>
      cases k with
      | year =>
        simp only [computeEndLoop, itemEnd, stepEnds, minByLin]
        exact ih _ hrest
      | month =>
        simp only [computeEndLoop, itemEnd, stepEnds, minByLin]
        exact ih _ hrest
      | day =>
        simp only [computeEndLoop, itemEnd, stepEnds, minByLin]
        exact ih _ hrest
      | hour => simp [itemSupported] at hsup
      | hour12 => simp [itemSupported] at hsup
      | minute => simp [itemSupported] at hsup
      | second => simp [itemSupported] at hsup
      | nanosecond => simp [itemSupported] at hsup
      | other => simp [itemSupported] at hsup
    | fixed => simp [itemSupported] at hsup
    | error => simp [itemSupported] at hsup

theorem minByLin_spec (xs : List DT) :
    ∀ acc x, minByLin acc xs = some x →
      (x ∈ xs ∨ acc = some x) ∧ (∀ s ∈ xs, linDT x ≤ linDT s) ∧
      (∀ a, acc = some a → linDT x ≤ linDT a) := by
  induction xs with
  | nil =>
    intro acc x h
    simp only [minByLin] at h
    refine ⟨Or.inr h, by simp, ?_⟩
    intro a ha
    rw [h] at ha
    obtain rfl : x = a := by simpa using ha
    exact le_refl _
  | cons y ys ih =>
    intro acc x h
    simp only [minByLin] at h
    obtain ⟨z, hz, hzy, hza, hzor⟩ := combineEnd_some_min acc y
    rw [hz] at h
    obtain ⟨hmem, hall, hacc⟩ := ih _ x h
    have hxz : linDT x ≤ linDT z := hacc z rfl
    refine ⟨?_, ?_, ?_⟩
    · rcases hmem with hx | hx
      · exact Or.inl (List.mem_cons_of_mem _ hx)
      · obtain rfl : z = x := by simpa using hx
        rcases hzor with rfl | hacc'
        · exact Or.inl (List.mem_cons_self _ _)
        · exact Or.inr hacc'
    · intro s hs
      rcases List.mem_cons.mp hs with rfl | hs
      · exact le_trans hxz hzy
      · exact hall s hs
    · intro a ha
      exact le_trans hxz (hza a ha)

theorem minByLin_isSome_of_acc (xs : List DT) :
    ∀ acc : Option DT, acc.isSome = true → (minByLin acc xs).isSome = true := by
  induction xs with
  | nil => intro acc h; exact h
  | cons y ys ih =>
    intro acc _
    obtain ⟨z, hz, _, _, _⟩ := combineEnd_some_min acc y
    simp only [minByLin, hz]
    exact ih _ (by simp)

theorem minByLin_isSome_of_ne_nil (xs : List DT) (acc : Option DT) (h : xs ≠ []) :
    (minByLin acc xs).isSome = true := by
  cases xs with
  | nil => exact absurd rfl h
  | cons y ys =>
    obtain ⟨z, hz, _, _, _⟩ := combineEnd_some_min acc y
    simp only [minByLin, hz]
    exact minByLin_isSome_of_acc ys _ (by simp)

theorem stepEnds_nil_of_no_numeric (b : DT) (items : List Item) :
    hasNumericItem items = false → stepEnds b items = [] := by
  induction items with
  | nil => intro _; rfl
  | cons i rest ih =>
    intro h
    simp only [hasNumericItem, List.any_cons, Bool.or_eq_false_iff] at h
    cases i with
    | literal c => exact ih (by simpa [hasNumericItem] using h.2)
    | space c => exact ih (by simpa [hasNumericItem] using h.2)
    | fixed => exact ih (by simpa [hasNumericItem] using h.2)
    | error => exact ih (by simpa [hasNumericItem] using h.2)
    | numeric k => simp [isNumericItem] at h

theorem stepEnds_ne_nil (b : DT) (items : List Item)
    (hsup : items.all itemSupported = true) (hnum : hasNumericItem items = true) :
    stepEnds b items ≠ [] := by
  induction items with
  | nil => simp [hasNumericItem] at hnum
  | cons i rest ih =>
    have hsup' : itemSupported i = true ∧ rest.all itemSupported = true := by
      simpa [List.all_cons] using hsup
    cases i with
    | literal c =>
      simp only [stepEnds]
      exact ih hsup'.2 (by simpa [hasNumericItem, isNumericItem] using hnum)
    | space c =>
      simp only [stepEnds]
      exact ih hsup'.2 (by simpa [hasNumericItem, isNumericItem] using hnum)
    | fixed => simp [itemSupported] at hsup'
    | error => simp [itemSupported] at hsup'
    | numeric k =>
      cases k with
      | year => simp [stepEnds]
      | month => simp [stepEnds]
      | day => simp [stepEnds]
      | hour => simp [itemSupported] at hsup'
      | hour12 => simp [itemSupported] at hsup'
      | minute => simp [itemSupported] at hsup'
      | second => simp [itemSupported] at hsup'
      | nanosecond => simp [itemSupported] at hsup'
      | other => simp [itemSupported] at hsup'

/-- C4: `parse_part_time_format` (over the scanned format items) emits a
`Datetime` tuple if and only if the substring parses under the format into a
valid UTC timestamp — including the coarser-to-finer contiguity rule with its
implicit defaults (`parsed_implicit_defaults`) — and every dynamic field of
the format is one of `%Y`/`%m`/`%d` with at least one numeric field present.
Then `begin` is the parsed timestamp and `end` is the minimum (in time order)
of the per-field steps `%Y → begin+12 months`, `%m → begin+1 month`,
`%d → begin+1 day`.  Formats with only literals/spaces, or with
hour/minute/second/fixed items, yield no tuple. -/
theorem c4_parse_part_time_format_spec (value : String) (items : List Item) :
    ((parse_part_time_format_items value items).isSome = true ↔
      ((parsedToBegin value items).isSome = true ∧ items.all itemSupported = true ∧
        hasNumericItem items = true)) ∧
    (∀ b e, parse_part_time_format_items value items = some (.datetime b e) →
      parsedToBegin value items = some b ∧
      e ∈ stepEnds b items ∧ ∀ s ∈ stepEnds b items, linDT e ≤ linDT s) := by
  constructor
  · constructor
    · intro h
      obtain ⟨cv, hcv⟩ := Option.isSome_iff_exists.mp h
      cases hb : parsedToBegin value items with
      | none => simp [parse_part_time_format_items, hb] at hcv
      | some b =>
        simp only [parse_part_time_format_items, hb] at hcv
        cases hl : computeEndLoop b none items with
        | none => simp [hl] at hcv
        | some oe =>
          cases oe with
          | none => simp [hl] at hcv
          | some e =>
            have hsup := computeEndLoop_supported b items none (some e) hl
            refine ⟨by simp [hb], hsup, ?_⟩
            have hmin := computeEndLoop_eq_minByLin b items none hsup
            rw [hl] at hmin
            have hmin' : minByLin none (stepEnds b items) = some e := by
              simpa using hmin.symm
            rcases (minByLin_spec _ none e hmin').1 with hmem | habs
            · by_contra hnum
              rw [stepEnds_nil_of_no_numeric b items (by simpa using hnum)] at hmem
              simp at hmem
            · simp at habs
    · rintro ⟨hbegin, hsup, hnum⟩
      obtain ⟨b, hb⟩ := Option.isSome_iff_exists.mp hbegin
      have hloop := computeEndLoop_eq_minByLin b items none hsup
      have hne := stepEnds_ne_nil b items hsup hnum
      obtain ⟨e, he⟩ :=
        Option.isSome_iff_exists.mp (minByLin_isSome_of_ne_nil (stepEnds b items) none hne)
      simp [parse_part_time_format_items, hb, hloop, he]
  · intro b e h
    cases hb : parsedToBegin value items with
    | none => simp [parse_part_time_format_items, hb] at h
    | some b' =>
      simp only [parse_part_time_format_items, hb] at h
      cases hl : computeEndLoop b' none items with
      | none => simp [hl] at h
      | some oe =>
        cases oe with
        | none => simp [hl] at h
        | some e' =>
          simp only [hl, Option.some.injEq, ColumnValue.datetime.injEq] at h
          obtain ⟨rfl, rfl⟩ := h
          have hsup := computeEndLoop_supported b' items none (some e') hl
          have hmin := computeEndLoop_eq_minByLin b' items none hsup
          rw [hl] at hmin
          have hmin' : minByLin none (stepEnds b' items) = some e' := by
            simpa using hmin.symm
          obtain ⟨hmem, hall, _⟩ := minByLin_spec _ none e' hmin'
          refine ⟨rfl, ?_, hall⟩
          rcases hmem with hmem | habs
          · exact hmem
          · simp at habs

/-- C4 witness: for the format `%Y` and the substring `"2023"`, the emitted
tuple's begin is 2023-01-01T00:00:00Z and its end is the minimum step
2024-01-01T00:00:00Z. -/
theorem c4_parse_part_time_format_spec_witness :
    parsedToBegin "2023" [Item.numeric NumericKind.year] = some ⟨2023, 1, 1, 0, 0, 0⟩ ∧
    (⟨2024, 1, 1, 0, 0, 0⟩ : DT)
      ∈ stepEnds ⟨2023, 1, 1, 0, 0, 0⟩ [Item.numeric NumericKind.year] ∧
    ∀ s ∈ stepEnds ⟨2023, 1, 1, 0, 0, 0⟩ [Item.numeric NumericKind.year],
      linDT ⟨2024, 1, 1, 0, 0, 0⟩ ≤ linDT s := by
  have h := (c4_parse_part_time_format_spec "2023" [Item.numeric NumericKind.year]).2
    ⟨2023, 1, 1, 0, 0, 0⟩ ⟨2024, 1, 1, 0, 0, 0⟩ (by decide)
  exact ⟨h.1, h.2.1, h.2.2⟩

end InfluxCore
